import Mathlib

set_option autoImplicit false

/-!
Verification of the deepwebide-yjs collaboration relay.

The development shallowly embeds the server's room multiplexer:
the connection quota (`trackConnection` / `untrackConnection`), the room
registry (`addClient`, `removeClient`, `broadcast`, grace timers), the Yjs
document registry (`handleYjsMessage`, `getDocumentContent`), the room-id
classifiers, the connection handler, and the save trigger
(`parseRoomId`, `triggerSaveAPI`).

JavaScript `Map`s are modelled as association lists with first-match
lookup, in-place replacement on `set`, and key removal on `delete`;
JS `Set`s are modelled as duplicate-free lists in insertion order.
The Yjs CRDT library is out of scope of the repository and is abstracted
by `CrdtModel`: a document is the list of update frames it has
incorporated, `applyOk` decides which frames the library accepts (an
exception from `Y.applyUpdate` is modelled as rejection), and `encode` /
`readText` abstract `Y.encodeStateAsUpdate` and `doc.getText(...)`.
-/

namespace DeepWebIDE

/-! ## Association lists modelling JS `Map` -/

section AListDefs

variable {α : Type}

/-- Models `Map.get`: first entry with the given key. -/
def lookupA : List (String × α) → String → Option α
  | [], _ => none
  | (k, v) :: rest, k2 => if k = k2 then some v else lookupA rest k2

/-- Models `Map.set`: replace the first entry with the key in place, else append. -/
def setA (k : String) (v : α) : List (String × α) → List (String × α)
  | [] => [(k, v)]
  | (k2, v2) :: rest => if k2 = k then (k, v) :: rest else (k2, v2) :: setA k v rest

/-- Models `Map.delete`: remove entries with the key (maps hold at most one). -/
def eraseA (k : String) : List (String × α) → List (String × α)
  | [] => []
  | (k2, v2) :: rest => if k2 = k then eraseA k rest else (k2, v2) :: eraseA k rest

end AListDefs

/-! ## Room-id classifiers

`src/server.ts` and `src/utils/saveManager.ts` test room ids with anchored
JavaScript regular expressions.  They are embedded over the character list
of the id.  JS `.` does not match line terminators; a negated class such
as `[^/]` does. -/

/-- A character JS `.` matches (anything but a line terminator). -/
def notLineTerm (c : Char) : Bool :=
  c != '\n' && c != '\r' && c != Char.ofNat 0x2028 && c != Char.ofNat 0x2029

/-- Strip a literal pattern from the front of the input, returning the rest. -/
def dropLit : List Char → List Char → Option (List Char)
  | [], s => some s
  | _ :: _, [] => none
  | p :: ps, c :: cs => if c = p then dropLit ps cs else none

/-- Numeric value of a digit run (JS `parseInt(..., 10)`). -/
def digitsToNat (ds : List Char) : Nat :=
  ds.foldl (fun n c => n * 10 + (c.toNat - 48)) 0

namespace Server

/-- Embeds src/server.ts `isCodeEditorRoom`: `/^repo-\d+(-.*)?$/` — the relaxed
admission pattern, which accepts `repo-<int>` with no trailing segment. -/
def isCodeEditorRoom (roomId : String) : Bool :=
  match dropLit (String.data "repo-") roomId.data with
  | none => false
  | some t =>
    match t.takeWhile Char.isDigit, t.dropWhile Char.isDigit with
    | [], _ => false
    | _ :: _, [] => true
    | _ :: _, c :: rest => c == '-' && rest.all notLineTerm

/-- Embeds src/server.ts `isFileTreeRoom`: `/^filetree-\d+$/`. -/
def isFileTreeRoom (roomId : String) : Bool :=
  match dropLit (String.data "filetree-") roomId.data with
  | none => false
  | some t => !t.isEmpty && t.all Char.isDigit

/-- Embeds src/server.ts `isSavePointRoom`: `/^savepoint-\d+$/`. -/
def isSavePointRoom (roomId : String) : Bool :=
  match dropLit (String.data "savepoint-") roomId.data with
  | none => false
  | some t => !t.isEmpty && t.all Char.isDigit

/-- Embeds src/server.ts `isAllowedRoom`. -/
def isAllowedRoom (roomId : String) : Bool :=
  isCodeEditorRoom roomId || isFileTreeRoom roomId || isSavePointRoom roomId

end Server

namespace SaveManager

/-- Embeds src/utils/saveManager.ts `SaveManager.isCodeEditorRoom`:
`/^repo-\d+-[^\/]+/` — requires a `-` after the digits and at least one
following character other than `/` (no end anchor). -/
def isCodeEditorRoom (roomId : String) : Bool :=
  match dropLit (String.data "repo-") roomId.data with
  | none => false
  | some t =>
    match t.takeWhile Char.isDigit, t.dropWhile Char.isDigit with
    | _ :: _, c :: c2 :: _ => c == '-' && c2 != '/'
    | _, _ => false

/-- Embeds src/utils/saveManager.ts `SaveManager.isFileTreeRoom`: `/^filetree-\d+$/`. -/
def isFileTreeRoom (roomId : String) : Bool :=
  match dropLit (String.data "filetree-") roomId.data with
  | none => false
  | some t => !t.isEmpty && t.all Char.isDigit

end SaveManager

/-- Modelled from the spec (§4.1 Room-ID Classifier): a room id of shape
`repo-<int>-<rest>` is classified CodeEditor, where `<int>` is a digit run
and `<rest>` must be non-empty.  This is the specification's classifier,
kept separate from the server's and the save manager's regex embeddings so
the two can be compared. -/
def specCodeEditorRoom (roomId : String) : Bool :=
  match dropLit (String.data "repo-") roomId.data with
  | none => false
  | some t =>
    match t.takeWhile Char.isDigit, t.dropWhile Char.isDigit with
    | [], _ => false
    | _ :: _, [] => false
    | _ :: _, c :: rest => c == '-' && !rest.isEmpty

/-! ## Connection quota (src/server.ts `trackConnection` / `untrackConnection`) -/

def MAX_CONNECTIONS_PER_IP_PER_ROOM : Nat := 10

/-- Models `connectionTracker : Map<string, Map<string, number>>` (IP → room → count). -/
abbrev QuotaTable := List (String × List (String × Nat))

/-- The tracked count for an (ip, room) pair; `none` when no entry exists. -/
def quotaCount (t : QuotaTable) (clientIP roomId : String) : Option Nat :=
  (lookupA t clientIP).bind fun ipRooms => lookupA ipRooms roomId

/-- Embeds src/server.ts `trackConnection`: admit a connection against the per-IP
per-room cap, returning whether it was admitted and the updated table. -/
def trackConnection (t : QuotaTable) (clientIP roomId : String) : Bool × QuotaTable :=
  let t1 := if (lookupA t clientIP).isSome then t else setA clientIP [] t
  let ipRooms := (lookupA t1 clientIP).getD []
  let currentCount := (lookupA ipRooms roomId).getD 0
  if MAX_CONNECTIONS_PER_IP_PER_ROOM ≤ currentCount then
    (false, t1)
  else
    (true, setA clientIP (setA roomId (currentCount + 1) ipRooms) t1)

/-- Embeds src/server.ts `untrackConnection`: release one connection for the pair. -/
def untrackConnection (t : QuotaTable) (clientIP roomId : String) : QuotaTable :=
  match lookupA t clientIP with
  | none => t
  | some ipRooms =>
    let currentCount := (lookupA ipRooms roomId).getD 0
    if currentCount ≤ 1 then
      let ipRooms2 := eraseA roomId ipRooms
      if ipRooms2.length = 0 then eraseA clientIP t else setA clientIP ipRooms2 t
    else
      setA clientIP (setA roomId (currentCount - 1) ipRooms) t

/-- Reachable-state invariant of the tracker: inner maps are nonempty and all
stored counts are at least 1. -/
def WfQuota (t : QuotaTable) : Prop :=
  ∀ p ∈ t, p.2 ≠ [] ∧ ∀ q ∈ p.2, 1 ≤ q.2

instance (t : QuotaTable) : Decidable (WfQuota t) := by
  unfold WfQuota
  infer_instance

/-- All counts in the table are bounded by the cap. -/
def BoundedQuota (t : QuotaTable) : Prop :=
  ∀ p ∈ t, ∀ q ∈ p.2, q.2 ≤ MAX_CONNECTIONS_PER_IP_PER_ROOM

instance (t : QuotaTable) : Decidable (BoundedQuota t) := by
  unfold BoundedQuota
  infer_instance

/-! ## Yjs document registry (src/utils/yjsDocumentManager.ts) -/

/-- Abstraction of the yjs library (out of scope of the repository): which
update frames it accepts for a given document, how a document's state is
encoded, and the text of a named field. -/
structure CrdtModel where
  applyOk : List Nat → List (List Nat) → Bool
  encode : List (List Nat) → List Nat
  readText : String → List (List Nat) → String

/-- The `YjsDocumentManager`'s two maps: `documents` (room → doc, a doc being
the frames applied to it, in order) and `documentStates` (room → encoded
snapshot). -/
structure YjsState where
  documents : List (String × List (List Nat))
  documentStates : List (String × List Nat)
deriving DecidableEq, Repr

/-- The document stored for a room, or a fresh empty one. -/
def docOf (st : YjsState) (roomId : String) : List (List Nat) :=
  (lookupA st.documents roomId).getD []

/-- Embeds src/utils/yjsDocumentManager.ts `getDocumentContent`: the string value
of the document's text field `monaco-content`, or `''` when the room has
no document. -/
def getDocumentContent (m : CrdtModel) (st : YjsState) (roomId : String) : String :=
  match lookupA st.documents roomId with
  | none => ""
  | some doc => m.readText "monaco-content" doc

/-- Embeds src/utils/yjsDocumentManager.ts `handleYjsMessage`: ignore empty
messages, lazily create the document, try `Y.applyUpdate`; on success
re-encode the document and store the snapshot, on library rejection
(the inner catch) leave doc and snapshot untouched. -/
def handleYjsMessage (m : CrdtModel) (st : YjsState) (roomId : String)
    (message : List Nat) : YjsState :=
  if message.length = 0 then st
  else
    let docs1 := if (lookupA st.documents roomId).isSome then st.documents
                 else setA roomId [] st.documents
    let doc := (lookupA docs1 roomId).getD []
    if m.applyOk message doc then
      let doc2 := doc ++ [message]
      { documents := setA roomId doc2 docs1,
        documentStates := setA roomId (m.encode doc2) st.documentStates }
    else
      { st with documents := docs1 }

/-- Embeds src/utils/yjsDocumentManager.ts `cleanupDocument`. -/
def cleanupDocument (st : YjsState) (roomId : String) : YjsState :=
  { documents := eraseA roomId st.documents,
    documentStates := eraseA roomId st.documentStates }

/-! ## Room registry (src/utils/roomManager.ts `RoomManager`) -/

/-- Models `ExtendedWebSocket`: the transport fields the room manager reads.
`wsId` models JS object identity; `clientId` / `roomId` are `""` when
unset (both are falsy in JS); `isAlive` is `none` before the first
heartbeat; `sendOk` models whether `client.send` succeeds. -/
structure WS where
  wsId : Nat
  readyState : Nat
  isAlive : Option Bool
  clientId : String
  roomId : String
  sendOk : Bool
deriving DecidableEq, Repr

/-- The *active* predicate from `getActiveClientCount`: open transport,
not marked dead, and both ids set. -/
def activeWS (c : WS) : Bool :=
  c.readyState == 1 && c.isAlive != some false && c.clientId != "" && c.roomId != ""

/-- Models `RoomInfo` (src/types/server.types.ts), timestamps as abstract ticks. -/
structure RoomInfo where
  clients : List WS
  createdAt : Nat
  lastActivity : Nat
deriving DecidableEq, Repr

/-- The `RoomManager`'s mutable state: `rooms`, the pending grace-timer
keys, and the owned `YjsDocumentManager` state. -/
structure RMState where
  rooms : List (String × RoomInfo)
  gracePeriods : List String
  yjs : YjsState
deriving DecidableEq, Repr

/-- Models `RoomManager.getActiveClientCount`. -/
def getActiveClientCount (s : RMState) (roomId : String) : Nat :=
  match lookupA s.rooms roomId with
  | none => 0
  | some room => (room.clients.filter activeWS).length

/-- Models `RoomManager.cleanupRoom`: drop the room and, for code-editor rooms,
its document (closing the member sockets is a transport effect). -/
def cleanupRoom (s : RMState) (roomId : String) : RMState :=
  match lookupA s.rooms roomId with
  | none => s
  | some _ =>
    let s2 := { s with rooms := eraseA roomId s.rooms }
    if SaveManager.isCodeEditorRoom roomId then
      { s2 with yjs := cleanupDocument s2.yjs roomId }
    else s2

/-- Models `RoomManager.startGracePeriod`: file-tree and unknown rooms are cleaned
up immediately; code-editor rooms arm a grace timer keyed by room id. -/
def startGracePeriod (s : RMState) (roomId : String) : RMState :=
  if SaveManager.isFileTreeRoom roomId then cleanupRoom s roomId
  else if !SaveManager.isCodeEditorRoom roomId then cleanupRoom s roomId
  else { s with gracePeriods :=
          if s.gracePeriods.contains roomId then s.gracePeriods
          else s.gracePeriods ++ [roomId] }

/-- The grace timer's `setTimeout` callback.  A timer that was cancelled
(`clearTimeout`) never runs, hence the guard on the pending-timer set. -/
def fireGraceTimer (s : RMState) (roomId : String) : RMState :=
  if s.gracePeriods.contains roomId then
    let s2 :=
      if (lookupA s.rooms roomId).isNone then cleanupRoom s roomId
      else if getActiveClientCount s roomId = 0 then cleanupRoom s roomId
      else s
    { s2 with gracePeriods := s2.gracePeriods.filter (fun r => r != roomId) }
  else s

/-- Models `RoomManager.addClient`: cancel a pending grace timer, create the room
on first insertion, ignore a client already present, else insert it;
returns the active count after the call. -/
def addClient (s : RMState) (roomId : String) (client : WS) (now : Nat) :
    Nat × RMState :=
  let s1 := if s.gracePeriods.contains roomId then
      { s with gracePeriods := s.gracePeriods.filter (fun r => r != roomId) }
    else s
  let s2 := if (lookupA s1.rooms roomId).isSome then s1
    else { s1 with rooms := setA roomId ⟨[], now, now⟩ s1.rooms }
  let room := (lookupA s2.rooms roomId).getD ⟨[], now, now⟩
  if room.clients.contains client then
    (getActiveClientCount s2 roomId, s2)
  else
    let room2 := { room with clients := room.clients ++ [client], lastActivity := now }
    let s3 := { s2 with rooms := setA roomId room2 s2.rooms }
    (getActiveClientCount s3 roomId, s3)

/-- Models `RoomManager.removeClient`. -/
def removeClient (s : RMState) (roomId : String) (client : WS) (now : Nat) :
    Nat × RMState :=
  match lookupA s.rooms roomId with
  | none => (0, s)
  | some room =>
    if room.clients.contains client then
      let room2 := { room with clients := room.clients.erase client,
                               lastActivity := now }
      let s2 := { s with rooms := setA roomId room2 s.rooms }
      let remaining := getActiveClientCount s2 roomId
      if remaining = 0 then (remaining, startGracePeriod s2 roomId)
      else (remaining, s2)
    else (getActiveClientCount s roomId, s)

/-- Observable steps of one `broadcast` call, in program order. -/
inductive BEvent where
  | applyUpd (message : List Nat)
  | send (client : WS) (message : List Nat)
deriving DecidableEq, Repr

def BEvent.isSend : BEvent → Bool
  | .send _ _ => true
  | _ => false

/-- A peer the broadcast loop successfully sends to: not the sender, open
transport, and `send` does not throw. -/
def sendSucceeds (sender c : WS) : Bool :=
  if c = sender then false
  else if c.readyState = 1 then c.sendOk
  else false

/-- A peer the broadcast loop collects in `deadClients`: not the sender,
and either a non-open transport or a failing `send`. -/
def isDeadPeer (sender c : WS) : Bool :=
  if c = sender then false
  else if c.readyState = 1 then !c.sendOk
  else true

/-- One iteration of the `room.clients.forEach` loop in
`RoomManager.broadcast`: accumulates the success count, the dead list,
and the send events. -/
def broadcastStep (message : List Nat) (sender : WS)
    (acc : Nat × List WS × List BEvent) (c : WS) : Nat × List WS × List BEvent :=
  if c = sender then acc
  else if c.readyState = 1 then
    if c.sendOk then (acc.1 + 1, acc.2.1, acc.2.2 ++ [BEvent.send c message])
    else (acc.1, acc.2.1 ++ [c], acc.2.2)
  else (acc.1, acc.2.1 ++ [c], acc.2.2)

/-- Models `RoomManager.broadcast`: mirror the update into the Yjs replica for
code-editor rooms, then fan out to all members except the sender,
collecting dead peers and purging them after the loop.  Returns the
successful-send count, the new state, and the event trace. -/
def broadcast (m : CrdtModel) (s : RMState) (roomId : String)
    (message : List Nat) (sender : WS) (now : Nat) :
    Nat × RMState × List BEvent :=
  match lookupA s.rooms roomId with
  | none => (0, s, [])
  | some room =>
    let isCE := SaveManager.isCodeEditorRoom roomId
    let yjs2 := if isCE then handleYjsMessage m s.yjs roomId message else s.yjs
    let evs0 : List BEvent := if isCE then [BEvent.applyUpd message] else []
    let res := room.clients.foldl (broadcastStep message sender) (0, [], [])
    let clients2 := List.foldl List.erase room.clients res.2.1
    let s2 : RMState := { s with
      rooms := setA roomId { room with clients := clients2, lastActivity := now }
                 s.rooms,
      yjs := yjs2 }
    (res.1, s2, evs0 ++ res.2.2)

/-! ## Connection handler (src/server.ts `handleClientConnection`) -/

/-- How the handler disposed of a newly accepted socket. -/
inductive HandleResult where
  | closed (code : Nat) (reason : String)
  | admitted (clientCount : Nat)
deriving DecidableEq, Repr

/-- The server's process-wide state: the quota table and the room manager. -/
structure ServerState where
  quota : QuotaTable
  rm : RMState
deriving DecidableEq, Repr

/-- Models `request.url.substring(1) || 'default'`. -/
def roomIdOfUrl (url : String) : String :=
  match url.data with
  | [] => "default"
  | _ :: rest => if rest.isEmpty then "default" else String.mk rest

/-- Embeds src/server.ts `handleClientConnection`: derive the room id, reject
unauthorized rooms (1008), close probes (1000), enforce the per-IP quota
(1008), enforce room capacity (1008, releasing the quota slot), else
assign identity and admit via `addClient`. -/
def handleClientConnection (maxClientsPerRoom : Nat) (s : ServerState)
    (url clientIP newClientId : String) (ws : WS) (now : Nat) :
    HandleResult × ServerState :=
  let roomId := roomIdOfUrl url
  if roomId != "default" && !Server.isAllowedRoom roomId then
    (HandleResult.closed 1008 "Unauthorized room access", s)
  else if roomId = "default" then
    (HandleResult.closed 1000 "Test connection", s)
  else
    let tr := trackConnection s.quota clientIP roomId
    if tr.1 = false then
      (HandleResult.closed 1008 "Too many connections per IP per room",
       { s with quota := tr.2 })
    else
      let s2 : ServerState := { s with quota := tr.2 }
      let currentClientCount := getActiveClientCount s2.rm roomId
      if maxClientsPerRoom ≤ currentClientCount then
        (HandleResult.closed 1008 "Room capacity exceeded",
         { s2 with quota := untrackConnection s2.quota clientIP roomId })
      else
        let ws2 : WS := { ws with roomId := roomId, clientId := newClientId,
                                  isAlive := some true }
        let res := addClient s2.rm roomId ws2 now
        (HandleResult.admitted res.1, { s2 with rm := res.2 })

/-! ## Save trigger (src/utils/saveManager.ts) -/

structure ParsedRoomId where
  repositoryId : Nat
  filePath : String
deriving DecidableEq, Repr

/-- Embeds src/utils/saveManager.ts `parseRoomId`: `/^repo-(\d+)-(.+)$/` (JS `.`
does not match line terminators), then `parseInt` / non-empty checks. -/
def parseRoomId (roomId : String) : Option ParsedRoomId :=
  match dropLit (String.data "repo-") roomId.data with
  | none => none
  | some t =>
    match t.takeWhile Char.isDigit, t.dropWhile Char.isDigit with
    | [], _ => none
    | _ :: _, [] => none
    | ds, c :: rest =>
      if c == '-' && !rest.isEmpty && rest.all notLineTerm then
        some { repositoryId := digitsToNat ds, filePath := String.mk rest }
      else none

/-- The HTTP `PUT` the save trigger issues. -/
structure SaveRequest where
  method : String
  url : String
  filePath : String
  content : String
  source : String
deriving DecidableEq, Repr

structure FetchResponse where
  ok : Bool
  status : Nat
  statusText : String
deriving DecidableEq, Repr

/-- Embeds src/utils/saveManager.ts `SaveManager.triggerSaveAPI`: parse the room
id (warn and return on failure), else `PUT` the content; non-ok responses
and network failures are rethrown to the caller.  `fetchImpl` abstracts
`fetch`; the second component lists the requests actually issued. -/
def triggerSaveAPI (fetchImpl : SaveRequest → Except String FetchResponse)
    (apiBaseUrl roomId content : String) : Except String Unit × List SaveRequest :=
  match parseRoomId roomId with
  | none => (Except.ok (), [])
  | some parsed =>
    let req : SaveRequest :=
      { method := "PUT",
        url := apiBaseUrl ++ "/repositories/" ++ toString parsed.repositoryId
                 ++ "/files/content",
        filePath := parsed.filePath,
        content := content,
        source := "yjs-collaboration" }
    match fetchImpl req with
    | Except.error e => (Except.error e, [req])
    | Except.ok resp =>
      if resp.ok then (Except.ok (), [req])
      else (Except.error ("API call failed: " ++ toString resp.status ++ " "
              ++ resp.statusText), [req])

/-! ## Concrete instances used by witnesses and counterexamples -/

/-- A CRDT library instance that accepts every frame. -/
def mAccept : CrdtModel :=
  { applyOk := fun _ _ => true,
    encode := fun d => d.flatten,
    readText := fun _ d => toString d.length }

/-- A CRDT library instance that rejects every frame (e.g. awareness
traffic). -/
def mReject : CrdtModel :=
  { applyOk := fun _ _ => false,
    encode := fun d => d.flatten,
    readText := fun _ _ => "" }

def emptyYjs : YjsState := { documents := [], documentStates := [] }

def wsSender : WS :=
  { wsId := 0, readyState := 1, isAlive := some true, clientId := "client_a",
    roomId := "repo-1-/a", sendOk := true }

def wsPeer : WS :=
  { wsId := 1, readyState := 1, isAlive := some true, clientId := "client_b",
    roomId := "repo-1-/a", sendOk := true }

/-- A room whose id has a non-empty `<rest>` beginning with `/`: the spec
classifies it CodeEditor, the save manager's regex does not. -/
def sSlashRoom : RMState :=
  { rooms := [("repo-1-/a", { clients := [wsSender, wsPeer], createdAt := 0,
                              lastActivity := 0 })],
    gracePeriods := [],
    yjs := emptyYjs }

def wsFresh : WS :=
  { wsId := 2, readyState := 1, isAlive := none, clientId := "", roomId := "",
    sendOk := true }

def emptyServerState : ServerState :=
  { quota := [], rm := { rooms := [], gracePeriods := [], yjs := emptyYjs } }

/-! # Theorems -/

/-! ## Association-list lemmas -/

section AListLemmas

variable {α : Type}

theorem lookupA_setA_self (k : String) (v : α) (l : List (String × α)) :
    lookupA (setA k v l) k = some v := by
  induction l with
  | nil => simp [setA, lookupA]
  | cons p rest ih =>
    obtain ⟨k2, v2⟩ := p
    by_cases h : k2 = k
    · simp [setA, h, lookupA]
    · simp [setA, h, lookupA, ih]

theorem lookupA_setA_ne (k k2 : String) (v : α) (l : List (String × α)) (h : k ≠ k2) :
    lookupA (setA k v l) k2 = lookupA l k2 := by
  induction l with
  | nil => simp [setA, lookupA, h]
  | cons p rest ih =>
    obtain ⟨k3, v3⟩ := p
    by_cases h3 : k3 = k
    · subst h3
      simp [setA, lookupA, h]
    · simp [setA, h3, lookupA, ih]

theorem lookupA_eraseA_self (k : String) (l : List (String × α)) :
    lookupA (eraseA k l) k = none := by
  induction l with
  | nil => simp [eraseA, lookupA]
  | cons p rest ih =>
    obtain ⟨k2, v2⟩ := p
    by_cases h : k2 = k
    · simp [eraseA, h, ih]
    · simp [eraseA, h, lookupA, ih]

theorem lookupA_eraseA_ne (k k2 : String) (l : List (String × α)) (h : k ≠ k2) :
    lookupA (eraseA k l) k2 = lookupA l k2 := by
  induction l with
  | nil => simp [eraseA]
  | cons p rest ih =>
    obtain ⟨k3, v3⟩ := p
    by_cases h3 : k3 = k
    · subst h3
      simp [eraseA, lookupA, h, ih]
    · simp [eraseA, h3, lookupA, ih]

theorem setA_eq_of_lookupA (k : String) (v : α) (l : List (String × α))
    (h : lookupA l k = some v) : setA k v l = l := by
  induction l with
  | nil => simp [lookupA] at h
  | cons p rest ih =>
    obtain ⟨k2, v2⟩ := p
    by_cases h2 : k2 = k
    · subst h2
      simp [lookupA] at h
      simp [setA, h]
    · simp [lookupA, h2] at h
      simp [setA, h2, ih h]

theorem eraseA_eq_of_lookupA_none (k : String) (l : List (String × α))
    (h : lookupA l k = none) : eraseA k l = l := by
  induction l with
  | nil => simp [eraseA]
  | cons p rest ih =>
    obtain ⟨k2, v2⟩ := p
    by_cases h2 : k2 = k
    · subst h2
      simp [lookupA] at h
    · simp [lookupA, h2] at h
      simp [eraseA, h2, ih h]

theorem setA_setA (k : String) (v1 v2 : α) (l : List (String × α)) :
    setA k v2 (setA k v1 l) = setA k v2 l := by
  induction l with
  | nil => simp [setA]
  | cons p rest ih =>
    obtain ⟨k2, v3⟩ := p
    by_cases h : k2 = k
    · simp [setA, h]
    · simp [setA, h, ih]

theorem eraseA_setA (k : String) (v : α) (l : List (String × α)) :
    eraseA k (setA k v l) = eraseA k l := by
  induction l with
  | nil => simp [setA, eraseA]
  | cons p rest ih =>
    obtain ⟨k2, v2⟩ := p
    by_cases h : k2 = k
    · simp [setA, eraseA, h]
    · simp [setA, eraseA, h, ih]

theorem mem_setA (k : String) (v : α) (l : List (String × α)) (p : String × α)
    (h : p ∈ setA k v l) : p = (k, v) ∨ p ∈ l := by
  induction l with
  | nil => simpa [setA] using h
  | cons q rest ih =>
    obtain ⟨k2, v2⟩ := q
    by_cases h2 : k2 = k
    · simp [setA, h2] at h
      rcases h with h | h
      · exact Or.inl h
      · exact Or.inr (List.mem_cons_of_mem _ h)
    · simp [setA, h2] at h
      rcases h with h | h
      · exact Or.inr (by simp [h])
      · rcases ih h with h3 | h3
        · exact Or.inl h3
        · exact Or.inr (List.mem_cons_of_mem _ h3)

theorem mem_eraseA (k : String) (l : List (String × α)) (p : String × α)
    (h : p ∈ eraseA k l) : p ∈ l := by
  induction l with
  | nil => simp [eraseA] at h
  | cons q rest ih =>
    obtain ⟨k2, v2⟩ := q
    by_cases h2 : k2 = k
    · simp [eraseA, h2] at h
      exact List.mem_cons_of_mem _ (ih h)
    · simp [eraseA, h2] at h
      rcases h with h | h
      · simp [h]
      · exact List.mem_cons_of_mem _ (ih h)

theorem lookupA_mem (k : String) (v : α) (l : List (String × α))
    (h : lookupA l k = some v) : (k, v) ∈ l := by
  induction l with
  | nil => simp [lookupA] at h
  | cons p rest ih =>
    obtain ⟨k2, v2⟩ := p
    by_cases h2 : k2 = k
    · subst h2
      simp [lookupA] at h
      simp [h]
    · simp [lookupA, h2] at h
      exact List.mem_cons_of_mem _ (ih h)

theorem setA_ne_nil (k : String) (v : α) (l : List (String × α)) :
    setA k v l ≠ [] := by
  cases l with
  | nil => simp [setA]
  | cons p rest =>
    obtain ⟨k2, v2⟩ := p
    by_cases h : k2 = k <;> simp [setA, h]

end AListLemmas

/-! ## Quota lemmas -/

theorem trackConnection_of_ge (t : QuotaTable) (ip roomId : String)
    (h : MAX_CONNECTIONS_PER_IP_PER_ROOM ≤ (quotaCount t ip roomId).getD 0) :
    trackConnection t ip roomId = (false, t) := by
  obtain ⟨ipRooms, hip⟩ : ∃ ipRooms, lookupA t ip = some ipRooms := by
    cases hl : lookupA t ip with
    | none =>
      rw [quotaCount, hl] at h
      simp [MAX_CONNECTIONS_PER_IP_PER_ROOM] at h
    | some r => exact ⟨r, rfl⟩
  have hcap : MAX_CONNECTIONS_PER_IP_PER_ROOM ≤ (lookupA ipRooms roomId).getD 0 := by
    rw [quotaCount, hip] at h
    simpa using h
  simp [trackConnection, hip, hcap]

theorem trackConnection_of_lt (t : QuotaTable) (ip roomId : String)
    (h : (quotaCount t ip roomId).getD 0 < MAX_CONNECTIONS_PER_IP_PER_ROOM) :
    (trackConnection t ip roomId).1 = true ∧
      quotaCount (trackConnection t ip roomId).2 ip roomId =
        some ((quotaCount t ip roomId).getD 0 + 1) ∧
      ∀ ip2 roomId2, (ip2 ≠ ip ∨ roomId2 ≠ roomId) →
        quotaCount (trackConnection t ip roomId).2 ip2 roomId2 =
          quotaCount t ip2 roomId2 := by
  cases hip : lookupA t ip with
  | none =>
    have hres : trackConnection t ip roomId = (true, setA ip [(roomId, 1)] t) := by
      have h0 : ¬ MAX_CONNECTIONS_PER_IP_PER_ROOM ≤ 0 := by
        simp [MAX_CONNECTIONS_PER_IP_PER_ROOM]
      simp [trackConnection, hip, lookupA_setA_self, lookupA, h0, setA_setA, setA]
    have hc : (quotaCount t ip roomId).getD 0 = 0 := by simp [quotaCount, hip]
    rw [hres, hc]
    refine ⟨rfl, ?_, ?_⟩
    · simp [quotaCount, lookupA_setA_self, lookupA]
    · intro ip2 roomId2 hne
      by_cases hip2 : ip = ip2
      · subst hip2
        rcases hne with hne | hne
        · exact absurd rfl hne
        · have hne2 : roomId ≠ roomId2 := fun hh => hne hh.symm
          simp [quotaCount, lookupA_setA_self, hip, lookupA, hne2]
      · simp [quotaCount, lookupA_setA_ne ip ip2 _ _ hip2]
  | some ipRooms =>
    have hcap : ¬ MAX_CONNECTIONS_PER_IP_PER_ROOM ≤ (lookupA ipRooms roomId).getD 0 := by
      rw [quotaCount, hip] at h
      simp only [Option.some_bind] at h
      exact Nat.not_le_of_lt h
    have hres : trackConnection t ip roomId =
        (true, setA ip (setA roomId ((lookupA ipRooms roomId).getD 0 + 1) ipRooms) t) := by
      simp [trackConnection, hip, hcap]
    have hc : (quotaCount t ip roomId).getD 0 = (lookupA ipRooms roomId).getD 0 := by
      simp [quotaCount, hip]
    rw [hres, hc]
    refine ⟨rfl, ?_, ?_⟩
    · simp [quotaCount, lookupA_setA_self]
    · intro ip2 roomId2 hne
      by_cases hip2 : ip = ip2
      · subst hip2
        rcases hne with hne | hne
        · exact absurd rfl hne
        · have hne2 : roomId ≠ roomId2 := fun hh => hne hh.symm
          simp [quotaCount, lookupA_setA_self, hip, lookupA_setA_ne roomId roomId2 _ _ hne2]
      · simp [quotaCount, lookupA_setA_ne ip ip2 _ _ hip2]

theorem trackConnection_none_eq (t : QuotaTable) (ip roomId : String)
    (hl : lookupA t ip = none) :
    trackConnection t ip roomId = (true, setA ip [(roomId, 1)] t) := by
  have h0 : ¬ MAX_CONNECTIONS_PER_IP_PER_ROOM ≤ 0 := by
    simp [MAX_CONNECTIONS_PER_IP_PER_ROOM]
  simp [trackConnection, hl, lookupA_setA_self, lookupA, h0, setA_setA, setA]

theorem trackConnection_some_lt_eq (t : QuotaTable) (ip roomId : String)
    (ipRooms : List (String × Nat)) (hl : lookupA t ip = some ipRooms)
    (hcap : (lookupA ipRooms roomId).getD 0 < MAX_CONNECTIONS_PER_IP_PER_ROOM) :
    trackConnection t ip roomId =
      (true, setA ip (setA roomId ((lookupA ipRooms roomId).getD 0 + 1) ipRooms) t) := by
  simp [trackConnection, hl, Nat.not_le_of_lt hcap]

theorem trackConnection_bounded (t : QuotaTable) (ip roomId : String)
    (hb : BoundedQuota t) : BoundedQuota (trackConnection t ip roomId).2 := by
  cases hl : lookupA t ip with
  | none =>
    rw [trackConnection_none_eq t ip roomId hl]
    intro p hp q hq
    rcases mem_setA _ _ _ p hp with h | h
    · subst h
      simp at hq
      simp [hq, MAX_CONNECTIONS_PER_IP_PER_ROOM]
    · exact hb p h q hq
  | some ipRooms =>
    by_cases hcap : MAX_CONNECTIONS_PER_IP_PER_ROOM ≤ (lookupA ipRooms roomId).getD 0
    · have : trackConnection t ip roomId = (false, t) := by
        simp [trackConnection, hl, hcap]
      rw [this]
      exact hb
    · rw [trackConnection_some_lt_eq t ip roomId ipRooms hl (Nat.lt_of_not_le hcap)]
      intro p hp q hq
      rcases mem_setA _ _ _ p hp with h | h
      · subst h
        simp only at hq
        rcases mem_setA _ _ _ q hq with h2 | h2
        · subst h2
          simp only
          omega
        · exact hb (ip, ipRooms) (lookupA_mem _ _ _ hl) q h2
      · exact hb p h q hq

theorem trackConnection_wf (t : QuotaTable) (ip roomId : String)
    (hwf : WfQuota t) : WfQuota (trackConnection t ip roomId).2 := by
  cases hl : lookupA t ip with
  | none =>
    rw [trackConnection_none_eq t ip roomId hl]
    intro p hp
    rcases mem_setA _ _ _ p hp with h | h
    · subst h
      constructor
      · simp
      · intro q hq
        simp at hq
        simp [hq]
    · exact hwf p h
  | some ipRooms =>
    by_cases hcap : MAX_CONNECTIONS_PER_IP_PER_ROOM ≤ (lookupA ipRooms roomId).getD 0
    · have : trackConnection t ip roomId = (false, t) := by
        simp [trackConnection, hl, hcap]
      rw [this]
      exact hwf
    · rw [trackConnection_some_lt_eq t ip roomId ipRooms hl (Nat.lt_of_not_le hcap)]
      intro p hp
      rcases mem_setA _ _ _ p hp with h | h
      · subst h
        constructor
        · exact setA_ne_nil _ _ _
        · intro q hq
          rcases mem_setA _ _ _ q hq with h2 | h2
          · subst h2
            simp
          · exact (hwf (ip, ipRooms) (lookupA_mem _ _ _ hl)).2 q h2
      · exact hwf p h

theorem untrackConnection_wf (t : QuotaTable) (ip roomId : String)
    (hwf : WfQuota t) : WfQuota (untrackConnection t ip roomId) := by
  unfold untrackConnection
  cases hl : lookupA t ip with
  | none => exact hwf
  | some ipRooms =>
    by_cases hc : (lookupA ipRooms roomId).getD 0 ≤ 1
    · simp only [hc, if_true]
      by_cases hlen : (eraseA roomId ipRooms).length = 0
      · simp only [hlen, if_true]
        intro p hp
        exact hwf p (mem_eraseA _ _ _ hp)
      · simp only [hlen, if_false]
        intro p hp
        rcases mem_setA _ _ _ p hp with h | h
        · subst h
          constructor
          · intro hnil
            exact hlen (by rw [show eraseA roomId ipRooms = [] from hnil]; rfl)
          · intro q hq
            exact (hwf (ip, ipRooms) (lookupA_mem _ _ _ hl)).2 q (mem_eraseA _ _ _ hq)
        · exact hwf p h
    · simp only [hc, if_false]
      intro p hp
      rcases mem_setA _ _ _ p hp with h | h
      · subst h
        constructor
        · exact setA_ne_nil _ _ _
        · intro q hq
          rcases mem_setA _ _ _ q hq with h2 | h2
          · subst h2
            simp only
            omega
          · exact (hwf (ip, ipRooms) (lookupA_mem _ _ _ hl)).2 q h2
      · exact hwf p h

theorem untrackConnection_noop (t : QuotaTable) (ip roomId : String)
    (hwf : WfQuota t) (h : quotaCount t ip roomId = none) :
    untrackConnection t ip roomId = t := by
  cases hl : lookupA t ip with
  | none => simp [untrackConnection, hl]
  | some ipRooms =>
    have hr : lookupA ipRooms roomId = none := by
      rw [quotaCount, hl] at h
      simpa using h
    have hnil : ipRooms ≠ [] := (hwf (ip, ipRooms) (lookupA_mem _ _ _ hl)).1
    have herase : eraseA roomId ipRooms = ipRooms := eraseA_eq_of_lookupA_none _ _ hr
    have hlen : ¬ (eraseA roomId ipRooms).length = 0 := by
      rw [herase]
      simpa using hnil
    simp [untrackConnection, hl, hr, hlen, herase, hnil,
      setA_eq_of_lookupA ip ipRooms t hl]

theorem quotaCount_untrack (t : QuotaTable) (ip roomId : String) (hwf : WfQuota t) :
    quotaCount (untrackConnection t ip roomId) ip roomId =
      (match quotaCount t ip roomId with
       | none => none
       | some c => if c ≤ 1 then none else some (c - 1)) := by
  cases hl : lookupA t ip with
  | none =>
    have h : quotaCount t ip roomId = none := by simp [quotaCount, hl]
    rw [untrackConnection_noop t ip roomId hwf h, h]
  | some ipRooms =>
    cases hr : lookupA ipRooms roomId with
    | none =>
      have h : quotaCount t ip roomId = none := by simp [quotaCount, hl, hr]
      rw [untrackConnection_noop t ip roomId hwf h, h]
    | some c =>
      have hq : quotaCount t ip roomId = some c := by simp [quotaCount, hl, hr]
      rw [hq]
      by_cases hc : c ≤ 1
      · have hres : quotaCount (untrackConnection t ip roomId) ip roomId = none := by
          unfold untrackConnection
          rw [hl]
          simp only [hr, Option.getD_some, hc, if_true]
          by_cases hlen : (eraseA roomId ipRooms).length = 0
          · simp only [hlen, if_true]
            simp [quotaCount, lookupA_eraseA_self]
          · simp only [hlen, if_false]
            simp [quotaCount, lookupA_setA_self, lookupA_eraseA_self]
        rw [hres]
        simp [hc]
      · have hres : quotaCount (untrackConnection t ip roomId) ip roomId = some (c - 1) := by
          unfold untrackConnection
          rw [hl]
          simp only [hr, Option.getD_some, hc, if_false]
          simp [quotaCount, lookupA_setA_self]
        rw [hres]
        simp [hc]

theorem untrack_track (t : QuotaTable) (ip roomId : String) (hwf : WfQuota t)
    (h : (quotaCount t ip roomId).getD 0 < MAX_CONNECTIONS_PER_IP_PER_ROOM) :
    untrackConnection (trackConnection t ip roomId).2 ip roomId = t := by
  cases hl : lookupA t ip with
  | none =>
    rw [trackConnection_none_eq t ip roomId hl]
    simp [untrackConnection, lookupA_setA_self, lookupA, eraseA, eraseA_setA,
      eraseA_eq_of_lookupA_none ip t hl]
  | some ipRooms =>
    cases hr : lookupA ipRooms roomId with
    | none =>
      have hcap : (lookupA ipRooms roomId).getD 0 < MAX_CONNECTIONS_PER_IP_PER_ROOM := by
        rw [hr]
        simp [MAX_CONNECTIONS_PER_IP_PER_ROOM]
      rw [trackConnection_some_lt_eq t ip roomId ipRooms hl hcap]
      unfold untrackConnection
      rw [lookupA_setA_self]
      rw [hr]
      simp only [Option.getD_none, Nat.zero_add, lookupA_setA_self, Option.getD_some]
      have h1 : (1 : Nat) ≤ 1 := le_refl 1
      simp only [h1, if_true]
      have he : eraseA roomId (setA roomId 1 ipRooms) = ipRooms := by
        rw [eraseA_setA, eraseA_eq_of_lookupA_none _ _ hr]
      rw [he]
      have hnil : ipRooms ≠ [] := (hwf (ip, ipRooms) (lookupA_mem _ _ _ hl)).1
      have hlen : ¬ ipRooms.length = 0 := by simpa using hnil
      simp only [hlen, if_false]
      rw [setA_setA, setA_eq_of_lookupA ip ipRooms t hl]
    | some c =>
      have hc1 : 1 ≤ c := (hwf (ip, ipRooms) (lookupA_mem _ _ _ hl)).2 (roomId, c)
        (lookupA_mem _ _ _ hr)
      have hcap : (lookupA ipRooms roomId).getD 0 < MAX_CONNECTIONS_PER_IP_PER_ROOM := by
        rw [quotaCount, hl] at h
        simpa [hr] using h
      rw [trackConnection_some_lt_eq t ip roomId ipRooms hl hcap]
      unfold untrackConnection
      rw [lookupA_setA_self, hr]
      simp only [Option.getD_some, lookupA_setA_self]
      have hc2 : ¬ c + 1 ≤ 1 := by omega
      simp only [hc2, if_false]
      have hadd : c + 1 - 1 = c := by omega
      rw [hadd, setA_setA roomId (c + 1) c ipRooms,
        setA_eq_of_lookupA roomId c ipRooms hr, setA_setA,
        setA_eq_of_lookupA ip ipRooms t hl]

/-- Claim C4: at every moment and for every (ip, roomId) pair the quota
table satisfies `quota[ip][roomId] ≤ MAX_CONNECTIONS_PER_IP_PER_ROOM`
(= 10): `trackConnection` returns `false` and leaves the table unchanged
when the pair's count already equals the cap, and otherwise increments the
count and returns `true`. -/
theorem trackConnection_spec (t : QuotaTable) (ip roomId : String) :
    ((quotaCount t ip roomId).getD 0 = MAX_CONNECTIONS_PER_IP_PER_ROOM →
      trackConnection t ip roomId = (false, t)) ∧
    ((quotaCount t ip roomId).getD 0 < MAX_CONNECTIONS_PER_IP_PER_ROOM →
      (trackConnection t ip roomId).1 = true ∧
        quotaCount (trackConnection t ip roomId).2 ip roomId =
          some ((quotaCount t ip roomId).getD 0 + 1) ∧
        ∀ ip2 roomId2, (ip2 ≠ ip ∨ roomId2 ≠ roomId) →
          quotaCount (trackConnection t ip roomId).2 ip2 roomId2 =
            quotaCount t ip2 roomId2) ∧
    (BoundedQuota t → BoundedQuota (trackConnection t ip roomId).2) := by
  refine ⟨?_, ?_, trackConnection_bounded t ip roomId⟩
  · intro h
    exact trackConnection_of_ge t ip roomId (Nat.le_of_eq h.symm)
  · intro h
    exact trackConnection_of_lt t ip roomId h

theorem trackConnection_spec_witness :
    quotaCount ((trackConnection [] "10.0.0.1" "repo-1-a.ts").2) "10.0.0.1" "repo-1-a.ts" =
      some 1 :=
  (((trackConnection_spec [] "10.0.0.1" "repo-1-a.ts").2.1 (by decide)).2.1)

/-- Claim C9: on a well-formed quota table, `untrackConnection` for a pair
with no tracked connections is a no-op; a decrement that would reach zero
deletes the entry instead (and the IP entry once its inner map empties), so
the table never stores a zero count — well-formedness (all stored counts
≥ 1, inner maps nonempty) is preserved by both `untrackConnection` and
`trackConnection`. -/
theorem untrackConnection_spec (t : QuotaTable) (ip roomId : String)
    (hwf : WfQuota t) :
    (quotaCount t ip roomId = none → untrackConnection t ip roomId = t) ∧
    WfQuota (untrackConnection t ip roomId) ∧
    WfQuota ((trackConnection t ip roomId).2) ∧
    quotaCount (untrackConnection t ip roomId) ip roomId =
      (match quotaCount t ip roomId with
       | none => none
       | some c => if c ≤ 1 then none else some (c - 1)) :=
  ⟨untrackConnection_noop t ip roomId hwf,
   untrackConnection_wf t ip roomId hwf,
   trackConnection_wf t ip roomId hwf,
   quotaCount_untrack t ip roomId hwf⟩

theorem untrackConnection_spec_witness :
    quotaCount (untrackConnection [("10.0.0.1", [("repo-1-a.ts", 1)])]
      "10.0.0.1" "repo-1-a.ts") "10.0.0.1" "repo-1-a.ts" = none := by
  have h := (untrackConnection_spec [("10.0.0.1", [("repo-1-a.ts", 1)])]
    "10.0.0.1" "repo-1-a.ts" (by decide)).2.2.2
  simpa using h

/-! ## Connection-handler theorems -/

/-- Claim C5: when an admitted connection is refused because the room's
active client count has reached `maxClientsPerRoom`, the handler releases
the quota slot taken in the immediately preceding admission step and
closes with 1008 ("Room capacity exceeded"); the refusal leaves the whole
server state (in particular the quota table) unchanged. -/
theorem handleClientConnection_capacity (maxClientsPerRoom : Nat) (s : ServerState)
    (url clientIP newClientId : String) (ws : WS) (now : Nat)
    (hwf : WfQuota s.quota)
    (hne : roomIdOfUrl url ≠ "default")
    (hallowed : Server.isAllowedRoom (roomIdOfUrl url) = true)
    (hquota : (quotaCount s.quota clientIP (roomIdOfUrl url)).getD 0 <
      MAX_CONNECTIONS_PER_IP_PER_ROOM)
    (hcap : maxClientsPerRoom ≤ getActiveClientCount s.rm (roomIdOfUrl url)) :
    handleClientConnection maxClientsPerRoom s url clientIP newClientId ws now =
      (HandleResult.closed 1008 "Room capacity exceeded", s) := by
  obtain ⟨q, rm⟩ := s
  have htr := (trackConnection_of_lt q clientIP (roomIdOfUrl url) hquota).1
  have hcancel := untrack_track q clientIP (roomIdOfUrl url) hwf hquota
  simp [handleClientConnection, hne, hallowed, htr, hcap, hcancel]

theorem handleClientConnection_capacity_witness :
    handleClientConnection 0 emptyServerState "/repo-1-a.ts" "10.0.0.1" "cid" wsFresh 0 =
      (HandleResult.closed 1008 "Room capacity exceeded", emptyServerState) :=
  handleClientConnection_capacity 0 emptyServerState "/repo-1-a.ts" "10.0.0.1" "cid" wsFresh 0
    (by decide) (by decide) (by decide) (by decide) (by decide)

/-- Claim C3 (amended): a connection whose room id (the URL path without
its leading `/`) is neither `default` nor accepted by the server's
admission patterns (`/^repo-\d+(-.*)?$/`, `/^filetree-\d+$/`,
`/^savepoint-\d+$/`) is closed with 1008 ("Unauthorized room access") and
admitted to no room — the state is untouched.  Note the admission pattern
is the relaxed one: ids like `repo-3` with no `<rest>` are *not* rejected
(see the counterexample). -/
theorem handleClientConnection_unauthorized (maxClientsPerRoom : Nat) (s : ServerState)
    (url clientIP newClientId : String) (ws : WS) (now : Nat)
    (hne : roomIdOfUrl url ≠ "default")
    (hnotallowed : Server.isAllowedRoom (roomIdOfUrl url) = false) :
    handleClientConnection maxClientsPerRoom s url clientIP newClientId ws now =
      (HandleResult.closed 1008 "Unauthorized room access", s) := by
  simp [handleClientConnection, hne, hnotallowed]

theorem handleClientConnection_unauthorized_witness :
    handleClientConnection 50 emptyServerState "/not-a-room!" "10.0.0.1" "cid" wsFresh 0 =
      (HandleResult.closed 1008 "Unauthorized room access", emptyServerState) :=
  handleClientConnection_unauthorized 50 emptyServerState "/not-a-room!" "10.0.0.1" "cid"
    wsFresh 0 (by decide) (by decide)

/-- Claim C3 counterexample: `repo-3` — an id of the form `repo-<int>`
with no non-empty `<rest>` — matches none of the specification's
recognized shapes, yet the connection handler admits it to a room instead
of closing it with 1008: the server's relaxed admission regex accepts it. -/
theorem handleClientConnection_repoNoRest_admitted :
    specCodeEditorRoom "repo-3" = false ∧
    Server.isFileTreeRoom "repo-3" = false ∧
    Server.isSavePointRoom "repo-3" = false ∧
    roomIdOfUrl "/repo-3" = "repo-3" ∧
    (handleClientConnection 50 emptyServerState "/repo-3" "10.0.0.1" "cid" wsFresh 0).1 =
      HandleResult.admitted 1 := by
  decide

/-! ## Grace-timer theorems -/

theorem contains_filter_ne (l : List String) (a : String) :
    (l.filter (fun r => r != a)).contains a = false := by
  simp

/-- Claim C6: calling `addClient` while a grace timer is pending for the
room cancels the timer (it is removed from the grace-timer set) and ends
with the client a member of the room; consequently the cancelled timer's
callback never runs, so firing it is a no-op and no cleanup of the room
occurs.  Pendingness of the timer models a join strictly before
`gracePeriodMs` has elapsed. -/
theorem addClient_cancelsGrace (s : RMState) (roomId : String) (client : WS) (now : Nat)
    (h : s.gracePeriods.contains roomId = true) :
    (addClient s roomId client now).2.gracePeriods.contains roomId = false ∧
    (∃ room, lookupA (addClient s roomId client now).2.rooms roomId = some room ∧
      client ∈ room.clients) ∧
    fireGraceTimer (addClient s roomId client now).2 roomId =
      (addClient s roomId client now).2 := by
  have hg : roomId ∈ s.gracePeriods := by simpa using h
  have hmain : (addClient s roomId client now).2.gracePeriods.contains roomId = false ∧
      ∃ room, lookupA (addClient s roomId client now).2.rooms roomId = some room ∧
        client ∈ room.clients := by
    cases hro : lookupA s.rooms roomId with
    | none =>
      have hres : (addClient s roomId client now).2 =
          { rooms := setA roomId
              { clients := [client], createdAt := now, lastActivity := now } s.rooms,
            gracePeriods := s.gracePeriods.filter (fun r => r != roomId),
            yjs := s.yjs } := by
        simp [addClient, hg, hro, lookupA_setA_self, setA_setA]
      rw [hres]
      exact ⟨contains_filter_ne _ _, ⟨_, lookupA_setA_self _ _ _, by simp⟩⟩
    | some room =>
      by_cases hcl : client ∈ room.clients
      · have hres : (addClient s roomId client now).2 =
            { rooms := s.rooms,
              gracePeriods := s.gracePeriods.filter (fun r => r != roomId),
              yjs := s.yjs } := by
          simp [addClient, hg, hro, hcl]
        rw [hres]
        exact ⟨contains_filter_ne _ _, ⟨room, hro, hcl⟩⟩
      · have hres : (addClient s roomId client now).2 =
            { rooms := setA roomId
                { room with clients := room.clients ++ [client], lastActivity := now }
                s.rooms,
              gracePeriods := s.gracePeriods.filter (fun r => r != roomId),
              yjs := s.yjs } := by
          simp [addClient, hg, hro, hcl]
        rw [hres]
        exact ⟨contains_filter_ne _ _, ⟨_, lookupA_setA_self _ _ _, by simp⟩⟩
  refine ⟨hmain.1, hmain.2, ?_⟩
  unfold fireGraceTimer
  rw [hmain.1]
  simp

theorem addClient_cancelsGrace_witness :
    (addClient { rooms := [], gracePeriods := ["repo-1-a.ts"], yjs := emptyYjs }
      "repo-1-a.ts" wsFresh 0).2.gracePeriods.contains "repo-1-a.ts" = false :=
  (addClient_cancelsGrace { rooms := [], gracePeriods := ["repo-1-a.ts"], yjs := emptyYjs }
    "repo-1-a.ts" wsFresh 0 (by decide)).1

/-! ## Broadcast theorems -/

theorem foldl_broadcastStep (message : List Nat) (sender : WS) (l : List WS) :
    ∀ (n : Nat) (ds : List WS) (es : List BEvent),
    l.foldl (broadcastStep message sender) (n, ds, es) =
      (n + (l.filter (sendSucceeds sender)).length,
       ds ++ l.filter (isDeadPeer sender),
       es ++ (l.filter (sendSucceeds sender)).map (fun c => BEvent.send c message)) := by
  induction l with
  | nil =>
    intro n ds es
    simp
  | cons c l ih =>
    intro n ds es
    by_cases hs : c = sender
    · have h1 : sendSucceeds sender c = false := by simp [sendSucceeds, hs]
      have h2 : isDeadPeer sender c = false := by simp [isDeadPeer, hs]
      have h3 : broadcastStep message sender (n, ds, es) c = (n, ds, es) := by
        simp [broadcastStep, hs]
      rw [List.foldl_cons, h3, ih]
      simp [List.filter_cons, h1, h2]
    · by_cases hr : c.readyState = 1
      · by_cases hk : c.sendOk = true
        · have h1 : sendSucceeds sender c = true := by simp [sendSucceeds, hs, hr, hk]
          have h2 : isDeadPeer sender c = false := by simp [isDeadPeer, hs, hr, hk]
          have h3 : broadcastStep message sender (n, ds, es) c =
              (n + 1, ds, es ++ [BEvent.send c message]) := by
            simp [broadcastStep, hs, hr, hk]
          rw [List.foldl_cons, h3, ih]
          simp [List.filter_cons, h1, h2]
          omega
        · have h1 : sendSucceeds sender c = false := by simp [sendSucceeds, hs, hr, hk]
          have h2 : isDeadPeer sender c = true := by simp [isDeadPeer, hs, hr, hk]
          have h3 : broadcastStep message sender (n, ds, es) c = (n, ds ++ [c], es) := by
            simp [broadcastStep, hs, hr, hk]
          rw [List.foldl_cons, h3, ih]
          simp [List.filter_cons, h1, h2]
      · have h1 : sendSucceeds sender c = false := by simp [sendSucceeds, hs, hr]
        have h2 : isDeadPeer sender c = true := by simp [isDeadPeer, hs, hr]
        have h3 : broadcastStep message sender (n, ds, es) c = (n, ds ++ [c], es) := by
          simp [broadcastStep, hs, hr]
        rw [List.foldl_cons, h3, ih]
        simp [List.filter_cons, h1, h2]

theorem filter_isSend_map_send (l : List WS) (message : List Nat) :
    (l.map (fun c => BEvent.send c message)).filter BEvent.isSend =
      l.map (fun c => BEvent.send c message) := by
  induction l with
  | nil => rfl
  | cons c l ih => simp [BEvent.isSend, ih]

theorem diff_filter_self {α : Type} [DecidableEq α] (l : List α) (p : α → Bool)
    (hn : l.Nodup) : l.diff (l.filter p) = l.filter (fun c => !(p c)) := by
  rw [hn.diff_eq_filter]
  apply List.filter_congr
  intro x hx
  simp [List.mem_filter, hx]

/-- Claim C2: on an existing room, `broadcast` returns exactly the number
of members other than the sender whose transport was open and whose send
succeeded; those members observe the bytes once each, in iteration order;
a send failure never aborts the call; and the members that failed or had a
non-open transport — collected during the iteration — are exactly the ones
purged from the member set after the iteration. -/
theorem broadcast_spec (m : CrdtModel) (s : RMState) (roomId : String)
    (message : List Nat) (sender : WS) (now : Nat) (room : RoomInfo)
    (hroom : lookupA s.rooms roomId = some room)
    (hnodup : room.clients.Nodup) :
    (broadcast m s roomId message sender now).1 =
      (room.clients.filter (sendSucceeds sender)).length ∧
    (broadcast m s roomId message sender now).2.2.filter BEvent.isSend =
      (room.clients.filter (sendSucceeds sender)).map (fun c => BEvent.send c message) ∧
    ∃ room2, lookupA (broadcast m s roomId message sender now).2.1.rooms roomId =
        some room2 ∧
      room2.clients = room.clients.filter (fun c => !(isDeadPeer sender c)) := by
  have hfold := foldl_broadcastStep message sender room.clients 0 [] []
  have herase : List.foldl List.erase room.clients
      (room.clients.filter (isDeadPeer sender)) =
      room.clients.filter (fun c => !(isDeadPeer sender c)) := by
    rw [← List.diff_eq_foldl]
    exact diff_filter_self room.clients (isDeadPeer sender) hnodup
  unfold broadcast
  rw [hroom]
  simp only [hfold, Nat.zero_add, List.nil_append]
  refine ⟨?_, ?_, ?_⟩
  · trivial
  · rw [List.filter_append, filter_isSend_map_send]
    cases hce : SaveManager.isCodeEditorRoom roomId <;> simp [BEvent.isSend]
  · refine ⟨_, lookupA_setA_self _ _ _, ?_⟩
    simp only [herase]

/-- Used by the C2 witness: a room with one live peer and one dead peer. -/
def wsBSender : WS :=
  { wsId := 10, readyState := 1, isAlive := some true, clientId := "client_s",
    roomId := "repo-1-a.ts", sendOk := true }

def wsBOk : WS :=
  { wsId := 11, readyState := 1, isAlive := some true, clientId := "client_o",
    roomId := "repo-1-a.ts", sendOk := true }

def wsBDead : WS :=
  { wsId := 12, readyState := 3, isAlive := some true, clientId := "client_d",
    roomId := "repo-1-a.ts", sendOk := true }

def roomB : RoomInfo :=
  { clients := [wsBSender, wsBOk, wsBDead], createdAt := 0, lastActivity := 0 }

def sBroadcastTest : RMState :=
  { rooms := [("repo-1-a.ts", roomB)], gracePeriods := [], yjs := emptyYjs }

theorem broadcast_spec_witness :
    (broadcast mAccept sBroadcastTest "repo-1-a.ts" [7] wsBSender 0).1 = 1 :=
  ((broadcast_spec mAccept sBroadcastTest "repo-1-a.ts" [7] wsBSender 0
    roomB (by rfl) (by decide)).1).trans (by decide)

/-- Claim C1 (amended): for every broadcast on an existing room that the
code classifies as a code-editor room — `SaveManager.isCodeEditorRoom`,
i.e. `repo-<int>-` followed by a character other than `/` — the registry's
`handleYjsMessage` (the `applyUpdate`) is applied to the payload before
any send to a peer is attempted: the trace starts with the apply event and
everything after it is a send, and the replica is updated regardless of
whether any downstream send succeeds. -/
theorem broadcast_appliesBeforeSend (m : CrdtModel) (s : RMState) (roomId : String)
    (message : List Nat) (sender : WS) (now : Nat) (room : RoomInfo)
    (hroom : lookupA s.rooms roomId = some room)
    (hce : SaveManager.isCodeEditorRoom roomId = true) :
    (∃ rest, (broadcast m s roomId message sender now).2.2 =
        BEvent.applyUpd message :: rest ∧ ∀ e ∈ rest, BEvent.isSend e = true) ∧
    (broadcast m s roomId message sender now).2.1.yjs =
      handleYjsMessage m s.yjs roomId message := by
  have hfold := foldl_broadcastStep message sender room.clients 0 [] []
  unfold broadcast
  rw [hroom]
  simp only [hce, if_true, hfold, List.nil_append, List.singleton_append]
  refine ⟨⟨_, rfl, ?_⟩, trivial⟩
  intro e he
  simp only [List.mem_map] at he
  obtain ⟨c, _, rfl⟩ := he
  rfl

theorem broadcast_appliesBeforeSend_witness :
    ∃ rest, (broadcast mAccept sBroadcastTest "repo-1-a.ts" [7] wsBSender 0).2.2 =
      BEvent.applyUpd [7] :: rest ∧ ∀ e ∈ rest, BEvent.isSend e = true :=
  (broadcast_appliesBeforeSend mAccept sBroadcastTest "repo-1-a.ts" [7] wsBSender 0
    roomB (by rfl) (by decide)).1

/-- Claim C1 counterexample: the room id for repository 1 and file path
`/a` (i.e. `repo-1-` followed by `/a`) has a non-empty `<rest>`, so the
specification's classifier marks it CodeEditor, yet a broadcast in that
room sends to a peer with *no* apply event in the trace and leaves the
document registry untouched: the code gates replication on the stricter
saveManager pattern, which rejects `/`-initial paths. -/
theorem broadcast_specClassifier_counterexample :
    specCodeEditorRoom "repo-1-/a" = true ∧
    SaveManager.isCodeEditorRoom "repo-1-/a" = false ∧
    (broadcast mAccept sSlashRoom "repo-1-/a" [1] wsSender 0).2.2 =
      [BEvent.send wsPeer [1]] ∧
    (broadcast mAccept sSlashRoom "repo-1-/a" [1] wsSender 0).2.1.yjs = emptyYjs := by
  decide

/-! ## Document-registry theorems -/

/-- Claim C8: `getDocumentContent` returns the current string value of the
document's text field named `monaco-content` when a document exists for
the room, and the empty string when the room has no document. -/
theorem getDocumentContent_spec (m : CrdtModel) (st : YjsState) (roomId : String) :
    (lookupA st.documents roomId = none → getDocumentContent m st roomId = "") ∧
    (∀ doc, lookupA st.documents roomId = some doc →
      getDocumentContent m st roomId = m.readText "monaco-content" doc) := by
  constructor
  · intro h
    simp [getDocumentContent, h]
  · intro doc h
    simp [getDocumentContent, h]

theorem getDocumentContent_spec_witness :
    getDocumentContent mAccept emptyYjs "repo-1-a.ts" = "" :=
  (getDocumentContent_spec mAccept emptyYjs "repo-1-a.ts").1 (by rfl)

/-- Claim C7: `handleYjsMessage` never propagates an error to its caller —
the library call is modelled as a fallible operation and both catch blocks
of the source are part of the (total) definition.  An empty payload is
ignored.  When the library rejects the bytes as an invalid sync/update
frame the call is a silent no-op: no snapshot is stored and every room's
document keeps exactly its frames (the room's document is lazily created
empty if it did not exist, per the registry's create-on-first-message
behaviour).  On a successful apply, the frame is incorporated and the
re-encoded snapshot of the resulting document is stored. -/
theorem handleYjsMessage_spec (m : CrdtModel) (st : YjsState) (roomId : String)
    (message : List Nat) :
    (message = [] → handleYjsMessage m st roomId message = st) ∧
    (message ≠ [] → m.applyOk message (docOf st roomId) = false →
      (handleYjsMessage m st roomId message).documentStates = st.documentStates ∧
      lookupA (handleYjsMessage m st roomId message).documents roomId =
        some (docOf st roomId) ∧
      (∀ r2, r2 ≠ roomId →
        lookupA (handleYjsMessage m st roomId message).documents r2 =
          lookupA st.documents r2)) ∧
    (message ≠ [] → m.applyOk message (docOf st roomId) = true →
      lookupA (handleYjsMessage m st roomId message).documents roomId =
        some (docOf st roomId ++ [message]) ∧
      lookupA (handleYjsMessage m st roomId message).documentStates roomId =
        some (m.encode (docOf st roomId ++ [message]))) := by
  refine ⟨?_, ?_, ?_⟩
  · intro h
    simp [handleYjsMessage, h]
  · intro hne hap
    have hlen : ¬ message.length = 0 := by simpa using hne
    cases hl : lookupA st.documents roomId with
    | some d =>
      have hdoc : docOf st roomId = d := by simp [docOf, hl]
      rw [hdoc] at hap
      have hres : handleYjsMessage m st roomId message = st := by
        simp [handleYjsMessage, hlen, hl, hap]
      rw [hres, hdoc]
      exact ⟨rfl, hl, fun r2 _ => rfl⟩
    | none =>
      have hdoc : docOf st roomId = [] := by simp [docOf, hl]
      rw [hdoc] at hap
      have hres : handleYjsMessage m st roomId message =
          { st with documents := setA roomId [] st.documents } := by
        simp [handleYjsMessage, hlen, hl, hap, lookupA_setA_self]
      rw [hres, hdoc]
      refine ⟨rfl, lookupA_setA_self _ _ _, ?_⟩
      intro r2 hr2
      exact lookupA_setA_ne roomId r2 _ _ (fun hh => hr2 hh.symm)
  · intro hne hap
    have hlen : ¬ message.length = 0 := by simpa using hne
    cases hl : lookupA st.documents roomId with
    | some d =>
      have hdoc : docOf st roomId = d := by simp [docOf, hl]
      rw [hdoc] at hap
      have hres : handleYjsMessage m st roomId message =
          { documents := setA roomId (d ++ [message]) st.documents,
            documentStates := setA roomId (m.encode (d ++ [message]))
              st.documentStates } := by
        simp [handleYjsMessage, hlen, hl, hap]
      rw [hres, hdoc]
      exact ⟨lookupA_setA_self _ _ _, lookupA_setA_self _ _ _⟩
    | none =>
      have hdoc : docOf st roomId = [] := by simp [docOf, hl]
      rw [hdoc] at hap
      have hres : handleYjsMessage m st roomId message =
          { documents := setA roomId ([] ++ [message]) (setA roomId [] st.documents),
            documentStates := setA roomId (m.encode ([] ++ [message]))
              st.documentStates } := by
        simp [handleYjsMessage, hlen, hl, hap, lookupA_setA_self]
      rw [hres, hdoc]
      constructor
      · rw [setA_setA]
        exact lookupA_setA_self _ _ _
      · exact lookupA_setA_self _ _ _

theorem handleYjsMessage_spec_witness :
    (handleYjsMessage mReject emptyYjs "repo-1-a.ts" [5]).documentStates =
      emptyYjs.documentStates :=
  ((handleYjsMessage_spec mReject emptyYjs "repo-1-a.ts" [5]).2.1
    (by decide) (by rfl)).1

/-! ## Save-trigger theorems -/

theorem specCodeEditorRoom_of_parseRoomId (roomId : String) (p : ParsedRoomId)
    (h : parseRoomId roomId = some p) : specCodeEditorRoom roomId = true := by
  cases hd : dropLit (String.data "repo-") roomId.data with
  | none => simp [parseRoomId, hd] at h
  | some t =>
    cases htw : t.takeWhile Char.isDigit with
    | nil => simp [parseRoomId, hd, htw] at h
    | cons d ds =>
      cases hdw : t.dropWhile Char.isDigit with
      | nil => simp [parseRoomId, hd, htw, hdw] at h
      | cons c rest =>
        simp only [parseRoomId, hd, htw, hdw] at h
        by_cases hcond : (c == '-' && !rest.isEmpty && rest.all notLineTerm) = true
        · have h1 := hcond
          simp only [Bool.and_eq_true] at h1
          simp [specCodeEditorRoom, hd, htw, hdw, h1.1.1, h1.1.2]
        · rw [if_neg hcond] at h
          exact absurd h (by simp)

/-- Claim C10: for every content string, `triggerSaveAPI` called with a
room id that does not match `repo-<int>-<filePath>` (with non-empty
`filePath`) returns successfully — no error reaches the caller — and
issues no HTTP request. -/
theorem triggerSaveAPI_nonmatching (fetchImpl : SaveRequest → Except String FetchResponse)
    (apiBaseUrl roomId content : String)
    (h : specCodeEditorRoom roomId = false) :
    triggerSaveAPI fetchImpl apiBaseUrl roomId content = (Except.ok (), []) := by
  have hp : parseRoomId roomId = none := by
    cases hp2 : parseRoomId roomId with
    | none => rfl
    | some p =>
      rw [specCodeEditorRoom_of_parseRoomId roomId p hp2] at h
      exact absurd h (by simp)
  simp [triggerSaveAPI, hp]

theorem triggerSaveAPI_nonmatching_witness :
    triggerSaveAPI (fun _ => Except.error "network down") "http://localhost:3000/api"
      "repo-3" "content" = (Except.ok (), []) :=
  triggerSaveAPI_nonmatching (fun _ => Except.error "network down")
    "http://localhost:3000/api" "repo-3" "content" (by decide)

end DeepWebIDE
